import Mathlib

/-!
Verification of the Supabase persistence adapter of a Telegram bot.

The development shallowly embeds the Python module `app/supabase_persistence.py`
(and, for one claim, the earlier adapter revision embedded in `app/main.py`).
Python dictionaries are modelled as insertion-ordered association lists,
Python integers as `Int`, values stored in the per-user / per-chat payload
dictionaries as an opaque type parameter, and exceptions as `Except String`
or `Option` results.  The remote Supabase table is modelled as a row store
`id ↦ data` together with a fault schedule saying which backend round-trips
raise.
-/

namespace SupaSpec

/-! ### Python dictionaries as insertion-ordered association lists -/

/-- A Python `dict`, modelled as an insertion-ordered association list
with distinct keys kept by construction of the operations below. -/
abbrev Dict (κ V : Type) := List (κ × V)

/-- Python `d[k] = v`: replace in place if the key is present, else append. -/
def dset {κ V : Type} [DecidableEq κ] : Dict κ V → κ → V → Dict κ V
  | [], k, v => [(k, v)]
  | (k₀, v₀) :: rest, k, v =>
      if k₀ = k then (k, v) :: rest else (k₀, v₀) :: dset rest k v

/-- Python `d.get(k)` / `k in d` combined: the stored value, if any. -/
def dget? {κ V : Type} [DecidableEq κ] : Dict κ V → κ → Option V
  | [], _ => none
  | (k₀, v₀) :: rest, k => if k₀ = k then some v₀ else dget? rest k

/-- Python `d.pop(k, None)`: drop the binding for `k`, no error when absent. -/
def dpop {κ V : Type} [DecidableEq κ] (d : Dict κ V) (k : κ) : Dict κ V :=
  d.filter (fun p => decide (p.1 ≠ k))

/-! ### CPython decimal printing of integers

`str(n)` for a Python `int` prints the canonical decimal representation:
the digits of `|n|` without leading zeros, preceded by a minus sign when
`n < 0`.  Lean core computes exactly these digit lists with
`Nat.toDigits 10`; the lemmas below establish the facts about that digit
list that the adapter proofs need (non-emptiness, digits-only, and the
numeric value recovered by a decimal left fold). -/

/-- Decimal left fold: the number denoted by a digit-character list. -/
def valFold (l : List Char) (a : Nat) : Nat :=
  l.foldl (fun x c => x * 10 + (c.toNat - 48)) a

/-! ### Python `str(int)` and `int(str)` -/

/-- CPython `str(n)` for a nonnegative integer: canonical decimal digits. -/
def pyStrNat (n : Nat) : String := ⟨Nat.toDigits 10 n⟩

/-- CPython `str(i)` for an arbitrary integer: a minus sign before the
decimal digits of the magnitude when negative. -/
def pyStrInt : Int → String
  | Int.ofNat n => pyStrNat n
  | Int.negSucc n => ⟨'-' :: Nat.toDigits 10 (n + 1)⟩

/-- CPython `str(x)` for the values a conversation chat id ranges over in
this adapter: an integer, or `None` (printed `"None"`). -/
def pyStrOptInt : Option Int → String
  | none => "None"
  | some i => pyStrInt i

/-- Value of a nonempty all-digit character list; `none` otherwise. -/
def digitsVal? (l : List Char) : Option Nat :=
  if l.isEmpty then none
  else if l.all Char.isDigit then some (valFold l 0) else none

/-- CPython `int(s)`: an optional sign followed by one or more decimal
digits; anything else raises `ValueError`, modelled as `none`.  (The
whitespace and underscore forms CPython also accepts never arise from the
strings this adapter produces and are not modelled.) -/
def pyInt (s : String) : Option Int :=
  match s.data with
  | [] => none
  | c :: cs =>
      if c = '-' then (digitsVal? cs).map (fun n => -(n : Int))
      else if c = '+' then (digitsVal? cs).map (fun n => (n : Int))
      else (digitsVal? (c :: cs)).map (fun n => (n : Int))

/-! ### The conversation-key codec

Embedding of `_conv_key_encode` / `_conv_key_decode` from
`app/supabase_persistence.py`.  A PTB conversation key is a pair
`(chat_id, thread_id)`; after a decode each component is an integer or
`None`, so keys are modelled as `Option Int × Option Int`. -/

/-- A decoded PTB conversation key: `(chat_id, thread_id)`. -/
abbrev PyKey := Option Int × Option Int

/-- Python `s.split(sep, 1)` as a partial operation on character lists:
`none` when the separator does not occur (Python `sep not in s`). -/
def splitOnce : List Char → Char → Option (List Char × List Char)
  | [], _ => none
  | c :: cs, sep =>
      if c = sep then some ([], cs)
      else (splitOnce cs sep).map (fun p => (c :: p.1, p.2))

/-- Embeds `_conv_key_encode`: the f-string
`f"{chat_id}:{thread_id if thread_id is not None else ''}"`. -/
def _conv_key_encode (key : PyKey) : String :=
  ⟨(pyStrOptInt key.1).data ++ ':' ::
    (match key.2 with
     | none => []
     | some t => (pyStrInt t).data)⟩

/-- Embeds `_conv_key_decode`.  When the string has no `':'` the whole
string is parsed as the chat id; otherwise it is split once at `':'` and
each nonempty segment is parsed with `int(...)` (an empty segment decodes
to `None`; the double conditional on line 31 of the source evaluates to
`None` in both of its else branches).  A `ValueError` from `int(...)` is
the `none` result. -/
def _conv_key_decode (s : String) : Option PyKey :=
  match splitOnce s.data ':' with
  | none => (pyInt s).map (fun n => (some n, none))
  | some (chat_str, thread_str) => do
      let chat_id ← if chat_str.isEmpty then pure none
                    else (pyInt ⟨chat_str⟩).map some
      let thread_id ← if thread_str.isEmpty then pure none
                      else (pyInt ⟨thread_str⟩).map some
      pure (chat_id, thread_id)

/-! ### Conversations table (de)serialization

Embeds `SupabasePersistence._conversations_encode` and
`_conversations_decode`.  Conversation states are an opaque type `S`.
The decode loop has no exception handling: a `ValueError` raised by
`_conv_key_decode` propagates, modelled by the `Option` result. -/

/-- One pass of the decode loop body over one flow mapping:
`decoded[_conv_key_decode(key_str)] = state` in insertion order. -/
def decodeMapping {S : Type} : Dict PyKey S → Dict String S → Option (Dict PyKey S)
  | acc, [] => some acc
  | acc, (key_str, state) :: rest =>
      match _conv_key_decode key_str with
      | none => none
      | some k => decodeMapping (dset acc k state) rest

/-- Embeds `_conversations_decode`.  The `mapping or {}` guard of the
source only replaces a falsy value by `{}` and is the identity on the
typed mappings modelled here. -/
def _conversations_decode {S : Type} (data : Dict String (Dict String S)) :
    Option (Dict String (Dict PyKey S)) :=
  go [] data
where
  go : Dict String (Dict PyKey S) → Dict String (Dict String S) →
      Option (Dict String (Dict PyKey S))
  | out, [] => some out
  | out, (name, mapping) :: rest =>
      match decodeMapping [] mapping with
      | none => none
      | some decoded => go (dset out name decoded) rest

/-- Embeds `_conversations_encode`: keys of each flow mapping are turned
into strings. -/
def _conversations_encode {S : Type} (conv : Dict String (Dict PyKey S)) :
    Dict String (Dict String S) :=
  conv.foldl (fun out p =>
    dset out p.1 (p.2.foldl (fun enc q => dset enc (_conv_key_encode q.1) q.2) [])) []

/-! ### The persistence store and its remote backend

`SupabasePersistence` keeps five in-memory caches mirroring five rows of
one remote table.  Per-user and per-chat payloads are string-keyed
mappings over an opaque leaf type `B`; conversation states are an opaque
type `S`.  The Supabase client is modelled as a row store together with a
fault schedule: backend round-trip number `i` raises iff `failAt i`. -/

/-- The `store_data` switches consumed by the adapter (the five boolean
fields its `update_*` methods read; all default to storing). -/
structure PersistenceInput where
  bot_data : Bool := true
  chat_data : Bool := true
  user_data : Bool := true
  callback_data : Bool := true
  conversations : Bool := true

/-- The JSON `data` payload of one remote row, per row shape used by the
adapter.  Per-user rows are keyed by `Int` directly, absorbing the
`{int(k): v}` key conversion performed at load. -/
inductive RowVal (B S : Type) where
  | kv : Dict String B → RowVal B S
  | perId : Dict Int (Dict String B) → RowVal B S
  | convTab : Dict String (Dict String S) → RowVal B S
  | probe : RowVal B S

/-- The Supabase client: current rows of the backing table, plus a fault
schedule (`failAt i` means the i-th round-trip raises) and the number of
round-trips issued so far. -/
structure Client (B S : Type) where
  rows : Dict String (RowVal B S)
  failAt : Nat → Bool
  calls : Nat

/-- Whether the next backend round-trip raises. -/
def Client.fails {B S : Type} (c : Client B S) : Bool := c.failAt c.calls

/-- Bare `select(...).limit(1).execute()` whose result is discarded. -/
def Client.selectAny {B S : Type} (c : Client B S) :
    Except String Unit × Client B S :=
  if c.fails then (.error "select failed", { c with calls := c.calls + 1 })
  else (.ok (), { c with calls := c.calls + 1 })

/-- `select("id, data").in_("id", ids).execute()`: the rows whose id is in
`ids`. -/
def Client.selectIn {B S : Type} (c : Client B S) (ids : List String) :
    Except String (Dict String (RowVal B S)) × Client B S :=
  if c.fails then (.error "select failed", { c with calls := c.calls + 1 })
  else (.ok (c.rows.filter (fun r => ids.contains r.1)),
        { c with calls := c.calls + 1 })

/-- `select("data").eq("id", id).execute()`: at most one row. -/
def Client.selectEq {B S : Type} (c : Client B S) (rowId : String) :
    Except String (List (RowVal B S)) × Client B S :=
  if c.fails then (.error "select failed", { c with calls := c.calls + 1 })
  else (.ok (match dget? c.rows rowId with | some v => [v] | none => []),
        { c with calls := c.calls + 1 })

/-- `upsert(rows).execute()`: insert or replace each row by id. -/
def Client.upsert {B S : Type} (c : Client B S)
    (rs : List (String × RowVal B S)) : Except String Unit × Client B S :=
  if c.fails then (.error "upsert failed", { c with calls := c.calls + 1 })
  else (.ok (), { c with calls := c.calls + 1,
                         rows := rs.foldl (fun d r => dset d r.1 r.2) c.rows })

/-- `delete().eq("id", id).execute()`. -/
def Client.deleteEq {B S : Type} (c : Client B S) (rowId : String) :
    Except String Unit × Client B S :=
  if c.fails then (.error "delete failed", { c with calls := c.calls + 1 })
  else (.ok (), { c with calls := c.calls + 1, rows := dpop c.rows rowId })

/-- The in-memory state of a `SupabasePersistence` object: configuration
plus the five local caches. -/
structure SupState (B S : Type) where
  table : String
  pfx : String
  store_data : PersistenceInput
  flush_on_update : Bool
  user_data : Dict Int (Dict String B)
  chat_data : Dict Int (Dict String B)
  bot_data : Dict String B
  conversations : Dict String (Dict PyKey S)
  callback_data : Dict String B

/-- Defaultdict read `self._user_data[uid]` (and likewise for chats):
missing keys yield the empty mapping. -/
def ddGet {B : Type} (d : Dict Int (Dict String B)) (k : Int) : Dict String B :=
  (dget? d k).getD []

/-- `get_user_data` returns the cache. -/
def get_user_data {B S : Type} (st : SupState B S) : Dict Int (Dict String B) :=
  st.user_data

/-- `get_chat_data` returns the cache. -/
def get_chat_data {B S : Type} (st : SupState B S) : Dict Int (Dict String B) :=
  st.chat_data

/-- `get_bot_data` returns the cache. -/
def get_bot_data {B S : Type} (st : SupState B S) : Dict String B :=
  st.bot_data

/-- `get_callback_data` returns the cache. -/
def get_callback_data {B S : Type} (st : SupState B S) : Dict String B :=
  st.callback_data

/-- `get_conversations(name)` returns the named flow table, `{}` when the
flow has no table yet. -/
def get_conversations {B S : Type} (st : SupState B S) (name : String) :
    Dict PyKey S :=
  (dget? st.conversations name).getD []

/-- The five rows written by `flush()`. -/
def flushRows {B S : Type} (st : SupState B S) : List (String × RowVal B S) :=
  [ (st.pfx ++ ":user_data", RowVal.perId st.user_data),
    (st.pfx ++ ":chat_data", RowVal.perId st.chat_data),
    (st.pfx ++ ":bot_data", RowVal.kv st.bot_data),
    (st.pfx ++ ":conversations", RowVal.convTab (_conversations_encode st.conversations)),
    (st.pfx ++ ":callback_data", RowVal.kv st.callback_data) ]

/-- Embeds `flush()`: one upsert of the whole data slice; a backend error
is caught and logged (`log.exception(...)`), never re-raised, and the
caches are untouched either way. -/
def flush {B S : Type} (st : SupState B S) (c : Client B S) :
    SupState B S × Client B S :=
  match c.upsert (flushRows st) with
  | (.error _, c') => (st, c')
  | (.ok _, c') => (st, c')

/-- Embeds `update_user_data`. -/
def update_user_data {B S : Type} (st : SupState B S) (c : Client B S)
    (user_id : Int) (data : Dict String B) : SupState B S × Client B S :=
  if !st.store_data.user_data then (st, c)
  else
    let st' := { st with user_data := dset st.user_data user_id data }
    if st.flush_on_update then flush st' c else (st', c)

/-- Embeds `update_chat_data`. -/
def update_chat_data {B S : Type} (st : SupState B S) (c : Client B S)
    (chat_id : Int) (data : Dict String B) : SupState B S × Client B S :=
  if !st.store_data.chat_data then (st, c)
  else
    let st' := { st with chat_data := dset st.chat_data chat_id data }
    if st.flush_on_update then flush st' c else (st', c)

/-- Embeds `update_bot_data`. -/
def update_bot_data {B S : Type} (st : SupState B S) (c : Client B S)
    (data : Dict String B) : SupState B S × Client B S :=
  if !st.store_data.bot_data then (st, c)
  else
    let st' := { st with bot_data := data }
    if st.flush_on_update then flush st' c else (st', c)

/-- Embeds `update_callback_data`. -/
def update_callback_data {B S : Type} (st : SupState B S) (c : Client B S)
    (data : Dict String B) : SupState B S × Client B S :=
  if !st.store_data.callback_data then (st, c)
  else
    let st' := { st with callback_data := data }
    if st.flush_on_update then flush st' c else (st', c)

/-- Embeds `update_conversation`: `setdefault` the flow table, then pop
the key when the new state is the absent sentinel `None`, else store it. -/
def update_conversation {B S : Type} (st : SupState B S) (c : Client B S)
    (name : String) (key : PyKey) (new_state : Option S) :
    SupState B S × Client B S :=
  if !st.store_data.conversations then (st, c)
  else
    let conv := (dget? st.conversations name).getD []
    let conv' := match new_state with
      | none => dpop conv key
      | some s => dset conv key s
    let st' := { st with conversations := dset st.conversations name conv' }
    if st.flush_on_update then flush st' c else (st', c)

/-- Embeds `drop_user_data` (note: no `store_data` guard in the source). -/
def drop_user_data {B S : Type} (st : SupState B S) (c : Client B S)
    (user_id : Int) : SupState B S × Client B S :=
  let st' := { st with user_data := dpop st.user_data user_id }
  if st.flush_on_update then flush st' c else (st', c)

/-- Embeds `drop_chat_data`. -/
def drop_chat_data {B S : Type} (st : SupState B S) (c : Client B S)
    (chat_id : Int) : SupState B S × Client B S :=
  let st' := { st with chat_data := dpop st.chat_data chat_id }
  if st.flush_on_update then flush st' c else (st', c)

/-- The five row ids `_load_all` selects. -/
def loadIds {B S : Type} (st : SupState B S) : List String :=
  [ st.pfx ++ ":user_data", st.pfx ++ ":chat_data", st.pfx ++ ":bot_data",
    st.pfx ++ ":conversations", st.pfx ++ ":callback_data" ]

/-- Embeds `_load_all`: a failing select is caught and logged
(`log.exception(...)`) and the empty structures are kept; a present row of
the wrong shape (or a falsy value, via `... or {}` and `isinstance`)
yields the empty default; but a `ValueError` raised while decoding the
conversations table propagates (the `try` only guards the select), which
is the `none` result. -/
def _load_all {B S : Type} (st : SupState B S) (c : Client B S) :
    Option (SupState B S × Client B S) :=
  match c.selectIn (loadIds st) with
  | (.error _, c') => some (st, c')
  | (.ok data_map, c') =>
      let ud := match dget? data_map (st.pfx ++ ":user_data") with
        | some (RowVal.perId d) => d | _ => []
      let cd := match dget? data_map (st.pfx ++ ":chat_data") with
        | some (RowVal.perId d) => d | _ => []
      let bd := match dget? data_map (st.pfx ++ ":bot_data") with
        | some (RowVal.kv d) => d | _ => []
      let convStored := match dget? data_map (st.pfx ++ ":conversations") with
        | some (RowVal.convTab d) => d | _ => []
      let cb := match dget? data_map (st.pfx ++ ":callback_data") with
        | some (RowVal.kv d) => d | _ => []
      match _conversations_decode convStored with
      | none => none
      | some conv =>
          some ({ st with user_data := ud, chat_data := cd, bot_data := bd,
                          conversations := conv, callback_data := cb }, c')

/-- The freshly constructed object before `_load_all` runs: configuration
stored, all caches empty. -/
def emptyState {B S : Type} (table pfx : String) (store_data : PersistenceInput)
    (flush_on_update : Bool) : SupState B S :=
  { table := table, pfx := pfx, store_data := store_data,
    flush_on_update := flush_on_update, user_data := [], chat_data := [],
    bot_data := [], conversations := [], callback_data := [] }

/-- Embeds `SupabasePersistence.__init__`: store the configuration,
initialize empty caches, then run `_load_all` once. -/
def SupabasePersistence_init {B S : Type} (table pfx : String)
    (store_data : PersistenceInput) (flush_on_update : Bool)
    (c : Client B S) : Option (SupState B S × Client B S) :=
  _load_all (emptyState table pfx store_data flush_on_update) c

/-- Embeds `health_check()`: a light select, then a probe upsert and
read-back (raising when the read-back is empty), with a `finally` block
that deletes the probe row and swallows only its own failure. -/
def health_check {B S : Type} (st : SupState B S) (c : Client B S) :
    Except String (Client B S) :=
  match c.selectAny with
  | (.error e, _) => .error ("Cannot select from table: " ++ e)
  | (.ok _, c1) =>
      let probe_id := st.pfx ++ ":__healthcheck__"
      let tryResult : Except String Unit × Client B S :=
        match c1.upsert [(probe_id, RowVal.probe)] with
        | (.error e, c2) => (.error ("Cannot upsert or select: " ++ e), c2)
        | (.ok _, c2) =>
            match c2.selectEq probe_id with
            | (.error e, c3) => (.error ("Cannot upsert or select: " ++ e), c3)
            | (.ok got, c3) =>
                if got.isEmpty then
                  (.error "Cannot upsert or select: select returned no data", c3)
                else (.ok (), c3)
      match (tryResult.2).deleteEq probe_id with
      | (_, c4) => tryResult.1.map (fun _ => c4)

/-! ### The earlier adapter revision embedded in `app/main.py`

That revision stores one row per entity (`user_<id>`, `chat_<id>`) on
write but reads the fixed rows `user_data` / `chat_data`.  The claims
about it concern row addressing only, so the backing table is modelled
directly as a row store of string-keyed mappings. -/

namespace MainRev

/-- Embeds `_load`: the `data` of the row with the given id, or `{}` when
no such row exists (`if res.data: ... return {}`). -/
def _load {B : Type} (rows : Dict String (Dict String B)) (key : String) :
    Dict String B :=
  (dget? rows key).getD []

/-- Embeds `_save`: upsert of one row. -/
def _save {B : Type} (rows : Dict String (Dict String B)) (key : String)
    (data : Dict String B) : Dict String (Dict String B) :=
  dset rows key data

/-- Embeds `update_user_data`: writes the row `f"user_{user_id}"`. -/
def update_user_data {B : Type} (rows : Dict String (Dict String B))
    (user_id : Int) (data : Dict String B) : Dict String (Dict String B) :=
  _save rows ("user_" ++ pyStrInt user_id) data

/-- Embeds `get_user_data`: reads the row `"user_data"`. -/
def get_user_data {B : Type} (rows : Dict String (Dict String B)) :
    Dict String B :=
  _load rows "user_data"

/-- Embeds `update_chat_data`: writes the row `f"chat_{chat_id}"`. -/
def update_chat_data {B : Type} (rows : Dict String (Dict String B))
    (chat_id : Int) (data : Dict String B) : Dict String (Dict String B) :=
  _save rows ("chat_" ++ pyStrInt chat_id) data

/-- Embeds `get_chat_data`: reads the row `"chat_data"`. -/
def get_chat_data {B : Type} (rows : Dict String (Dict String B)) :
    Dict String B :=
  _load rows "chat_data"

end MainRev

/-! ### Concrete fixtures used by witnesses and counterexamples -/

/-- A client with a constant fault schedule. -/
def constClient {B S : Type} (rows : Dict String (RowVal B S)) (b : Bool) :
    Client B S :=
  { rows := rows, failAt := fun _ => b, calls := 0 }

/-- A client whose n-th round-trip alone raises. -/
def failNthClient {B S : Type} (n : Nat) : Client B S :=
  { rows := [], failAt := fun i => decide (i = n), calls := 0 }

/-- A small concrete store state for witnesses. -/
def exSt : SupState Nat Nat :=
  { table := "bot_state", pfx := "main", store_data := {},
    flush_on_update := true,
    user_data := [(5, [("visits", 1)])], chat_data := [],
    bot_data := [("greeting", 7)],
    conversations := [("survey", [((some 100, none), 3)])],
    callback_data := [] }

/-! ### Supporting lemmas: dictionaries, decimal printing, the key codec -/

theorem dget?_dset_self {κ V : Type} [DecidableEq κ] (d : Dict κ V) (k : κ) (v : V) :
    dget? (dset d k v) k = some v := by
  induction d with
  | nil => simp [dset, dget?]
  | cons p rest ih =>
      obtain ⟨k₀, v₀⟩ := p
      by_cases h : k₀ = k
      · simp [dset, h, dget?]
      · simp [dset, h, dget?, ih]

theorem dget?_dset_ne {κ V : Type} [DecidableEq κ] (d : Dict κ V) (k k' : κ) (v : V)
    (h : k' ≠ k) : dget? (dset d k v) k' = dget? d k' := by
  induction d with
  | nil =>
      simp only [dset, dget?]
      rw [if_neg (Ne.symm h)]
  | cons p rest ih =>
      obtain ⟨k₀, v₀⟩ := p
      by_cases hk : k₀ = k
      · subst hk
        simp only [dset, if_pos rfl, dget?]
        rw [if_neg (Ne.symm h), if_neg (Ne.symm h)]
      · simp only [dset, if_neg hk, dget?]
        by_cases hk' : k₀ = k'
        · rw [if_pos hk', if_pos hk']
        · rw [if_neg hk', if_neg hk', ih]

theorem dget?_dpop_self {κ V : Type} [DecidableEq κ] (d : Dict κ V) (k : κ) :
    dget? (dpop d k) k = none := by
  induction d with
  | nil => simp [dpop, dget?]
  | cons p rest ih =>
      obtain ⟨k₀, v₀⟩ := p
      by_cases h : k₀ = k
      · simpa [dpop, h] using ih
      · simpa [dpop, h, dget?] using ih

theorem dpop_dpop {κ V : Type} [DecidableEq κ] (d : Dict κ V) (k : κ) :
    dpop (dpop d k) k = dpop d k := by
  simp [dpop, List.filter_filter]

theorem valFold_append (l₁ l₂ : List Char) (a : Nat) :
    valFold (l₁ ++ l₂) a = valFold l₂ (valFold l₁ a) := by
  simp [valFold, List.foldl_append]

theorem digitChar_isDigit {m : Nat} (h : m < 10) : (Nat.digitChar m).isDigit = true := by
  have : ∀ i : Fin 10, (Nat.digitChar i.val).isDigit = true := by decide
  exact this ⟨m, h⟩

theorem digitChar_toNat {m : Nat} (h : m < 10) : (Nat.digitChar m).toNat - 48 = m := by
  have : ∀ i : Fin 10, (Nat.digitChar i.val).toNat - 48 = i.val := by decide
  exact this ⟨m, h⟩

/-- Fuel irrelevance for the core digit printer: any sufficient fuel gives
the same digit list. -/
theorem toDigitsCore_fuel (n : Nat) : ∀ f g : Nat, ∀ ds : List Char, n < f → n < g →
    Nat.toDigitsCore 10 f n ds = Nat.toDigitsCore 10 g n ds := by
  induction n using Nat.strong_induction_on with
  | _ n ih =>
    intro f g ds hf hg
    match f, g with
    | f' + 1, g' + 1 =>
      simp only [Nat.toDigitsCore]
      by_cases h : n / 10 = 0
      · simp [h]
      · have hlt : n / 10 < n := Nat.div_lt_self (by omega) (by omega)
        simp only [h, if_false]
        exact ih (n / 10) hlt f' g' _ (by omega) (by omega)

/-- The accumulator of the core digit printer is just appended output. -/
theorem toDigitsCore_append (n : Nat) : ∀ f : Nat, ∀ ds : List Char, n < f →
    Nat.toDigitsCore 10 f n ds = Nat.toDigitsCore 10 f n [] ++ ds := by
  induction n using Nat.strong_induction_on with
  | _ n ih =>
    intro f ds hf
    match f with
    | f' + 1 =>
      simp only [Nat.toDigitsCore]
      by_cases h : n / 10 = 0
      · simp [h]
      · have hlt : n / 10 < n := Nat.div_lt_self (by omega) (by omega)
        have hf' : n / 10 < f' := by omega
        simp only [h, if_false]
        rw [ih (n / 10) hlt f' (Nat.digitChar (n % 10) :: ds) hf',
            ih (n / 10) hlt f' [Nat.digitChar (n % 10)] hf']
        simp

/-- Recurrence for `Nat.toDigits 10`: last decimal digit appended after the
digits of the quotient. -/
theorem toDigits_recurrence (n : Nat) :
    Nat.toDigits 10 n =
      if n < 10 then [Nat.digitChar n]
      else Nat.toDigits 10 (n / 10) ++ [Nat.digitChar (n % 10)] := by
  by_cases h : n < 10
  · have h0 : n / 10 = 0 := Nat.div_eq_of_lt h
    have hm : n % 10 = n := Nat.mod_eq_of_lt h
    simp [Nat.toDigits, Nat.toDigitsCore, h0, hm, h]
  · have h0 : n / 10 ≠ 0 := by omega
    have e1 : Nat.toDigits 10 n =
        Nat.toDigitsCore 10 n (n / 10) [Nat.digitChar (n % 10)] := by
      simp only [Nat.toDigits, Nat.toDigitsCore, h0, if_false]
    rw [if_neg h, e1,
        toDigitsCore_append (n / 10) n [Nat.digitChar (n % 10)] (by omega),
        toDigitsCore_fuel (n / 10) n (n / 10 + 1) [] (by omega) (by omega)]
    rfl

theorem toDigits_ne_nil (n : Nat) : Nat.toDigits 10 n ≠ [] := by
  rw [toDigits_recurrence]
  by_cases h : n < 10 <;> simp [h]

theorem toDigits_all_digit (n : Nat) :
    ∀ c ∈ Nat.toDigits 10 n, c.isDigit = true := by
  induction n using Nat.strong_induction_on with
  | _ n ih =>
    intro c hc
    rw [toDigits_recurrence] at hc
    by_cases h : n < 10
    · simp [h] at hc
      subst hc
      exact digitChar_isDigit h
    · simp [h] at hc
      rcases hc with hc | hc
      · exact ih (n / 10) (Nat.div_lt_self (by omega) (by omega)) c hc
      · subst hc
        exact digitChar_isDigit (Nat.mod_lt _ (by omega))

theorem valFold_toDigits (n : Nat) : valFold (Nat.toDigits 10 n) 0 = n := by
  induction n using Nat.strong_induction_on with
  | _ n ih =>
    rw [toDigits_recurrence]
    by_cases h : n < 10
    · simp [h, valFold, digitChar_toNat h]
    · have hlt : n / 10 < n := Nat.div_lt_self (by omega) (by omega)
      simp only [h, if_false]
      rw [valFold_append, ih (n / 10) hlt]
      simp [valFold, digitChar_toNat (Nat.mod_lt n (by omega))]
      omega

theorem digitsVal?_toDigits (n : Nat) :
    digitsVal? (Nat.toDigits 10 n) = some n := by
  have h1 : (Nat.toDigits 10 n).isEmpty = false := by
    cases hl : Nat.toDigits 10 n with
    | nil => exact absurd hl (toDigits_ne_nil n)
    | cons c cs => rfl
  have h2 : (Nat.toDigits 10 n).all Char.isDigit = true :=
    List.all_eq_true.mpr (fun c hc => toDigits_all_digit n c hc)
  simp [digitsVal?, h1, h2, valFold_toDigits]

theorem pyInt_pyStrInt (i : Int) : pyInt (pyStrInt i) = some i := by
  cases i with
  | ofNat n =>
      have hd := digitsVal?_toDigits n
      cases hl : Nat.toDigits 10 n with
      | nil => exact absurd hl (toDigits_ne_nil n)
      | cons c cs =>
          have hcdig : c.isDigit = true := toDigits_all_digit n c (by rw [hl]; simp)
          have hne1 : ¬(c = '-') := by
            intro hc
            rw [hc] at hcdig
            simp [Char.isDigit] at hcdig
          have hne2 : ¬(c = '+') := by
            intro hc
            rw [hc] at hcdig
            simp [Char.isDigit] at hcdig
          rw [hl] at hd
          simp [pyInt, pyStrInt, pyStrNat, hl, hne1, hne2, hd]
  | negSucc n =>
      have hd := digitsVal?_toDigits (n + 1)
      simp [pyInt, pyStrInt, hd]
      rw [Int.negSucc_eq]
      ring

theorem pyStrInt_chars (i : Int) :
    ∀ c ∈ (pyStrInt i).data, c.isDigit = true ∨ c = '-' := by
  cases i with
  | ofNat n =>
      intro c hc
      exact Or.inl (toDigits_all_digit n c hc)
  | negSucc n =>
      intro c hc
      have hc' : c = '-' ∨ c ∈ Nat.toDigits 10 (n + 1) := by
        simpa [pyStrInt] using hc
      rcases hc' with h | h
      · exact Or.inr h
      · exact Or.inl (toDigits_all_digit (n + 1) c h)

theorem pyStrInt_ne_nil (i : Int) : (pyStrInt i).data ≠ [] := by
  cases i with
  | ofNat n => exact toDigits_ne_nil n
  | negSucc n => simp [pyStrInt]

theorem pyStrInt_no_colon (i : Int) : ∀ c ∈ (pyStrInt i).data, c ≠ ':' := by
  intro c hc hcol
  rcases pyStrInt_chars i c hc with h | h
  · rw [hcol] at h
    simp [Char.isDigit] at h
  · rw [hcol] at h
    simp at h

theorem splitOnce_append (a b : List Char) (sep : Char)
    (h : ∀ c ∈ a, c ≠ sep) : splitOnce (a ++ sep :: b) sep = some (a, b) := by
  induction a with
  | nil => simp [splitOnce]
  | cons c cs ih =>
      have hc : c ≠ sep := h c (by simp)
      have ih' := ih (fun x hx => h x (by simp [hx]))
      simp [splitOnce, if_neg hc, ih']

theorem conv_key_encode_decode (c : Int) (t : Option Int) :
    _conv_key_decode (_conv_key_encode (some c, t)) = some (some c, t) := by
  have hsplit : splitOnce ((pyStrInt c).data ++ ':' ::
      (match t with | none => [] | some v => (pyStrInt v).data)) ':' =
      some ((pyStrInt c).data,
        (match t with | none => [] | some v => (pyStrInt v).data)) :=
    splitOnce_append _ _ _ (pyStrInt_no_colon c)
  have hchat : ((pyStrInt c).data).isEmpty = false := by
    cases hl : (pyStrInt c).data with
    | nil => exact absurd hl (pyStrInt_ne_nil c)
    | cons x xs => rfl
  have hcp : pyInt ⟨(pyStrInt c).data⟩ = some c := pyInt_pyStrInt c
  cases t with
  | none =>
      simp [_conv_key_decode, _conv_key_encode, pyStrOptInt, hsplit, hchat, hcp]
  | some v =>
      have hth : ((pyStrInt v).data).isEmpty = false := by
        cases hl : (pyStrInt v).data with
        | nil => exact absurd hl (pyStrInt_ne_nil v)
        | cons x xs => rfl
      have hvp : pyInt ⟨(pyStrInt v).data⟩ = some v := pyInt_pyStrInt v
      simp [_conv_key_decode, _conv_key_encode, pyStrOptInt, hsplit, hchat,
        hcp, hth, hvp]

/-! ### Supporting lemmas about the store operations -/

theorem flush_fst {B S : Type} (st : SupState B S) (c : Client B S) :
    (flush st c).1 = st := by
  rcases h : c.upsert (flushRows st) with ⟨r, c'⟩
  cases r <;> simp [flush, h]

theorem strApp_ne_of_ne (s a b : String) (h : a ≠ b) : s ++ a ≠ s ++ b := by
  intro he
  apply h
  apply String.ext
  have hd : s.data ++ a.data = s.data ++ b.data := by
    rw [← String.data_append, ← String.data_append, he]
  exact List.append_cancel_left hd

theorem user_row_ne (i : Int) : ("user_" ++ pyStrInt i) ≠ "user_data" := by
  intro h
  have h1 : (['u', 's', 'e', 'r', '_'] : List Char) ++ (pyStrInt i).data =
      ['u', 's', 'e', 'r', '_'] ++ ['d', 'a', 't', 'a'] := by
    have := congrArg String.data h
    rw [String.data_append] at this
    exact this
  have h2 : (pyStrInt i).data = ['d', 'a', 't', 'a'] := List.append_cancel_left h1
  have hd : 'd' ∈ (pyStrInt i).data := by rw [h2]; simp
  rcases pyStrInt_chars i 'd' hd with hc | hc
  · exact absurd hc (by decide)
  · exact absurd hc (by decide)

theorem chat_row_ne (i : Int) : ("chat_" ++ pyStrInt i) ≠ "chat_data" := by
  intro h
  have h1 : (['c', 'h', 'a', 't', '_'] : List Char) ++ (pyStrInt i).data =
      ['c', 'h', 'a', 't', '_'] ++ ['d', 'a', 't', 'a'] := by
    have := congrArg String.data h
    rw [String.data_append] at this
    exact this
  have h2 : (pyStrInt i).data = ['d', 'a', 't', 'a'] := List.append_cancel_left h1
  have hd : 'd' ∈ (pyStrInt i).data := by rw [h2]; simp
  rcases pyStrInt_chars i 'd' hd with hc | hc
  · exact absurd hc (by decide)
  · exact absurd hc (by decide)

theorem decodeMapping_none {S : Type} (mp : Dict String S) (k : String) (v : S)
    (hmem : (k, v) ∈ mp) (hk : _conv_key_decode k = none) :
    ∀ acc, decodeMapping acc mp = none := by
  induction mp with
  | nil => cases hmem
  | cons p rest ih =>
      intro acc
      obtain ⟨k₀, v₀⟩ := p
      rcases List.mem_cons.mp hmem with he | hm
      · rw [Prod.mk.injEq] at he
        obtain ⟨h1, _⟩ := he
        subst h1
        simp [decodeMapping, hk]
      · cases hdec : _conv_key_decode k₀ with
        | none => simp [decodeMapping, hdec]
        | some kk =>
            simp only [decodeMapping, hdec]
            exact ih hm _

theorem conversations_decode_go_none {S : Type} (d : Dict String (Dict String S))
    (name : String) (mp : Dict String S)
    (hmem : (name, mp) ∈ d) (hmp : decodeMapping [] mp = none) :
    ∀ out, _conversations_decode.go out d = none := by
  induction d with
  | nil => cases hmem
  | cons p rest ih =>
      intro out
      obtain ⟨n₀, m₀⟩ := p
      rcases List.mem_cons.mp hmem with he | hm
      · rw [Prod.mk.injEq] at he
        obtain ⟨_, h2⟩ := he
        subst h2
        simp [_conversations_decode.go, hmp]
      · cases hdec : decodeMapping ([] : Dict PyKey S) m₀ with
        | none => simp [_conversations_decode.go, hdec]
        | some dec =>
            simp only [_conversations_decode.go, hdec]
            exact ih hm _

theorem update_user_data_fst {B S : Type} (st : SupState B S) (c : Client B S)
    (user_id : Int) (data : Dict String B) (h : st.store_data.user_data = true) :
    (update_user_data st c user_id data).1 =
      { st with user_data := dset st.user_data user_id data } := by
  simp only [update_user_data, h, Bool.not_true, Bool.false_eq_true, if_false]
  by_cases hf : st.flush_on_update <;> simp [hf, flush_fst]

theorem update_chat_data_fst {B S : Type} (st : SupState B S) (c : Client B S)
    (chat_id : Int) (data : Dict String B) (h : st.store_data.chat_data = true) :
    (update_chat_data st c chat_id data).1 =
      { st with chat_data := dset st.chat_data chat_id data } := by
  simp only [update_chat_data, h, Bool.not_true, Bool.false_eq_true, if_false]
  by_cases hf : st.flush_on_update <;> simp [hf, flush_fst]

theorem update_bot_data_fst {B S : Type} (st : SupState B S) (c : Client B S)
    (data : Dict String B) (h : st.store_data.bot_data = true) :
    (update_bot_data st c data).1 = { st with bot_data := data } := by
  simp only [update_bot_data, h, Bool.not_true, Bool.false_eq_true, if_false]
  by_cases hf : st.flush_on_update <;> simp [hf, flush_fst]

theorem update_callback_data_fst {B S : Type} (st : SupState B S) (c : Client B S)
    (data : Dict String B) (h : st.store_data.callback_data = true) :
    (update_callback_data st c data).1 = { st with callback_data := data } := by
  simp only [update_callback_data, h, Bool.not_true, Bool.false_eq_true, if_false]
  by_cases hf : st.flush_on_update <;> simp [hf, flush_fst]

theorem update_conversation_fst {B S : Type} (st : SupState B S) (c : Client B S)
    (name : String) (key : PyKey) (new_state : Option S)
    (h : st.store_data.conversations = true) :
    (update_conversation st c name key new_state).1 =
      { st with conversations := (dset st.conversations name
          (match new_state with
           | none => dpop ((dget? st.conversations name).getD []) key
           | some s => dset ((dget? st.conversations name).getD []) key s)) } := by
  simp only [update_conversation, h, Bool.not_true, Bool.false_eq_true, if_false]
  by_cases hf : st.flush_on_update <;> simp [hf, flush_fst]

theorem drop_user_data_fst {B S : Type} (st : SupState B S) (c : Client B S)
    (user_id : Int) :
    (drop_user_data st c user_id).1 =
      { st with user_data := dpop st.user_data user_id } := by
  simp only [drop_user_data]
  by_cases hf : st.flush_on_update <;> simp [hf, flush_fst]

theorem drop_chat_data_fst {B S : Type} (st : SupState B S) (c : Client B S)
    (chat_id : Int) :
    (drop_chat_data st c chat_id).1 =
      { st with chat_data := dpop st.chat_data chat_id } := by
  simp only [drop_chat_data]
  by_cases hf : st.flush_on_update <;> simp [hf, flush_fst]

/-! ### The claims -/

/-- C1 (counterexample): with a backend whose remote select fails at
construction time, `SupabasePersistence.__init__` does NOT abort: it
returns normally (`some`), with every in-memory cache empty.  This
refutes the claim that a failing startup select aborts construction. -/
theorem C1_counterexample :
    SupabasePersistence_init "bot_state" "main" {} true
      (constClient ([] : Dict String (RowVal Unit Unit)) true) =
    some (emptyState "bot_state" "main" {} true,
      { constClient ([] : Dict String (RowVal Unit Unit)) true with calls := 1 }) := by
  rfl

/-- C1 (amended): if the remote select performed when the persistence
store is constructed fails, the exception is caught and logged inside
`_load_all` and construction completes normally with empty in-memory
caches — the failure IS swallowed, not re-raised. -/
theorem C1_load_failure_swallowed {B S : Type} (table pfx : String)
    (sd : PersistenceInput) (fl : Bool) (c : Client B S)
    (h : c.fails = true) :
    SupabasePersistence_init table pfx sd fl c =
      some (emptyState table pfx sd fl, { c with calls := c.calls + 1 }) := by
  simp [SupabasePersistence_init, _load_all, Client.selectIn, h]

/-- C1 (witness): the amended theorem applied to a concrete always-failing
client. -/
theorem C1_witness :
    (constClient ([] : Dict String (RowVal Unit Unit)) true).fails = true ∧
    SupabasePersistence_init "tbl" "p" {} false
      (constClient ([] : Dict String (RowVal Unit Unit)) true) =
      some (emptyState "tbl" "p" {} false,
        { constClient ([] : Dict String (RowVal Unit Unit)) true with calls := 1 }) :=
  ⟨rfl, C1_load_failure_swallowed "tbl" "p" {} false _ rfl⟩

/-- C2: composite conversation keys with an integer chat id and an
optional integer thread id round-trip exactly through
`_conv_key_encode` / `_conv_key_decode` — in particular `(chatId, None)`
and `(chatId, 0)` decode back to the distinct values they are — and the
encoding is injective on such keys, so distinct keys never collide. -/
theorem C2_conv_key_roundtrip :
    (∀ (c : Int) (t : Option Int),
        _conv_key_decode (_conv_key_encode (some c, t)) = some (some c, t)) ∧
    (∀ (c₁ c₂ : Int) (t₁ t₂ : Option Int),
        _conv_key_encode (some c₁, t₁) = _conv_key_encode (some c₂, t₂) →
        c₁ = c₂ ∧ t₁ = t₂) := by
  refine ⟨conv_key_encode_decode, ?_⟩
  intro c₁ c₂ t₁ t₂ h
  have h2 := congrArg _conv_key_decode h
  rw [conv_key_encode_decode, conv_key_encode_decode] at h2
  simp at h2
  exact h2

/-- C2 (witness): the injectivity part applied at concrete keys, the
round trip evaluated at `(100, None)`, `(100, 0)` and `(100, 7)`. -/
theorem C2_witness :
    ((100 : Int) = 100 ∧ (some 7 : Option Int) = some 7) ∧
    _conv_key_decode (_conv_key_encode (some 100, none)) = some (some 100, none) ∧
    _conv_key_decode (_conv_key_encode (some 100, some 0)) = some (some 100, some 0) ∧
    _conv_key_decode (_conv_key_encode (some 100, some 7)) = some (some 100, some 7) :=
  ⟨C2_conv_key_roundtrip.2 100 100 (some 7) (some 7) rfl,
   C2_conv_key_roundtrip.1 100 none,
   C2_conv_key_roundtrip.1 100 (some 0),
   C2_conv_key_roundtrip.1 100 (some 7)⟩

/-- C3 (counterexample): a stored conversations table for flow `"survey"`
holding one well-formed entry `"100:7"` and one entry with an unparseable
key `"abc"` does not decode to the well-formed remainder: the whole
decode raises (`none`).  The unparseable entry is not skipped and the
remaining entries are lost, refuting the skip-and-continue claim. -/
theorem C3_counterexample :
    _conversations_decode [("survey", [("100:7", (1 : Nat)), ("abc", 2)])] = none := by
  rfl

/-- C3 (amended): an entry whose composite-key string cannot be parsed
makes `_conversations_decode` raise a `ValueError` (`none`), aborting the
whole decode — and hence the startup load — instead of being skipped with
a warning. -/
theorem C3_decode_aborts {S : Type} (d : Dict String (Dict String S))
    (name : String) (mp : Dict String S) (k : String) (v : S)
    (hmem : (name, mp) ∈ d) (hkv : (k, v) ∈ mp)
    (hk : _conv_key_decode k = none) :
    _conversations_decode d = none := by
  unfold _conversations_decode
  exact conversations_decode_go_none d name mp hmem
    (decodeMapping_none mp k v hkv hk []) []

/-- C3 (witness): the amended theorem applied to a concrete table with a
well-formed and an unparseable entry. -/
theorem C3_witness :
    _conversations_decode [("survey", [("100:", (4 : Nat)), ("oops", 5)])] = none :=
  C3_decode_aborts _ "survey" [("100:", 4), ("oops", 5)] "oops" 5
    (by simp) (by simp) (by decide)

/-- C4: a backend error during `flush()` is caught — `flush` returns
normally in every case and the in-memory caches are untouched; on a
failing upsert the remote rows are also untouched; and any flush issued
while the backend accepts the call (e.g. a later retry after recovery)
upserts all five rows from the current caches, persisting previously
unpersisted state. -/
theorem C4_flush_failure_swallowed {B S : Type} (st : SupState B S) (c : Client B S) :
    (flush st c).1 = st ∧
    (c.fails = true → (flush st c).2 = { c with calls := c.calls + 1 }) ∧
    (c.fails = false →
      dget? (flush st c).2.rows (st.pfx ++ ":user_data") =
          some (RowVal.perId st.user_data) ∧
      dget? (flush st c).2.rows (st.pfx ++ ":chat_data") =
          some (RowVal.perId st.chat_data) ∧
      dget? (flush st c).2.rows (st.pfx ++ ":bot_data") =
          some (RowVal.kv st.bot_data) ∧
      dget? (flush st c).2.rows (st.pfx ++ ":conversations") =
          some (RowVal.convTab (_conversations_encode st.conversations)) ∧
      dget? (flush st c).2.rows (st.pfx ++ ":callback_data") =
          some (RowVal.kv st.callback_data)) := by
  refine ⟨flush_fst st c, ?_, ?_⟩
  · intro h
    simp [flush, Client.upsert, h]
  · intro h
    have hrows : (flush st c).2.rows =
        dset (dset (dset (dset (dset c.rows
          (st.pfx ++ ":user_data") (RowVal.perId st.user_data))
          (st.pfx ++ ":chat_data") (RowVal.perId st.chat_data))
          (st.pfx ++ ":bot_data") (RowVal.kv st.bot_data))
          (st.pfx ++ ":conversations")
            (RowVal.convTab (_conversations_encode st.conversations)))
          (st.pfx ++ ":callback_data") (RowVal.kv st.callback_data) := by
      simp [flush, Client.upsert, h, flushRows]
    have n12 := strApp_ne_of_ne st.pfx ":user_data" ":chat_data" (by decide)
    have n13 := strApp_ne_of_ne st.pfx ":user_data" ":bot_data" (by decide)
    have n14 := strApp_ne_of_ne st.pfx ":user_data" ":conversations" (by decide)
    have n15 := strApp_ne_of_ne st.pfx ":user_data" ":callback_data" (by decide)
    have n23 := strApp_ne_of_ne st.pfx ":chat_data" ":bot_data" (by decide)
    have n24 := strApp_ne_of_ne st.pfx ":chat_data" ":conversations" (by decide)
    have n25 := strApp_ne_of_ne st.pfx ":chat_data" ":callback_data" (by decide)
    have n34 := strApp_ne_of_ne st.pfx ":bot_data" ":conversations" (by decide)
    have n35 := strApp_ne_of_ne st.pfx ":bot_data" ":callback_data" (by decide)
    have n45 := strApp_ne_of_ne st.pfx ":conversations" ":callback_data" (by decide)
    rw [hrows]
    refine ⟨?_, ?_, ?_, ?_, ?_⟩
    · rw [dget?_dset_ne _ _ _ _ n15, dget?_dset_ne _ _ _ _ n14,
          dget?_dset_ne _ _ _ _ n13, dget?_dset_ne _ _ _ _ n12,
          dget?_dset_self]
    · rw [dget?_dset_ne _ _ _ _ n25, dget?_dset_ne _ _ _ _ n24,
          dget?_dset_ne _ _ _ _ n23, dget?_dset_self]
    · rw [dget?_dset_ne _ _ _ _ n35, dget?_dset_ne _ _ _ _ n34,
          dget?_dset_self]
    · rw [dget?_dset_ne _ _ _ _ n45, dget?_dset_self]
    · rw [dget?_dset_self]

/-- C4 (witness): a failing flush leaves the state and the remote rows
alone; a flush against a recovered backend writes the user-data row. -/
theorem C4_witness :
    (flush exSt (constClient [] true)).1 = exSt ∧
    (flush exSt (constClient [] true)).2 = { constClient [] true with calls := 1 } ∧
    dget? (flush exSt (constClient [] false)).2.rows ("main" ++ ":user_data") =
      some (RowVal.perId exSt.user_data) :=
  ⟨(C4_flush_failure_swallowed exSt (constClient [] true)).1,
   (C4_flush_failure_swallowed exSt (constClient [] true)).2.1 rfl,
   ((C4_flush_failure_swallowed exSt (constClient [] false)).2.2 rfl).1⟩

/-- C5: with conversation storage enabled, updating a conversation entry
to the absent sentinel `None` removes it: the table returned by
`get_conversations` no longer contains the key, whether or not it was
present before. -/
theorem C5_absent_removes_entry {B S : Type} (st : SupState B S) (c : Client B S)
    (name : String) (key : PyKey)
    (h : st.store_data.conversations = true) :
    dget? (get_conversations (update_conversation st c name key none).1 name)
      key = none := by
  rw [update_conversation_fst st c name key none h]
  simp [get_conversations, dget?_dset_self, dget?_dpop_self]

/-- C5 (witness): applied to a concrete state where the key is present,
and to one where it is not. -/
theorem C5_witness :
    exSt.store_data.conversations = true ∧
    dget? (get_conversations
      (update_conversation exSt (constClient [] false) "survey"
        (some 100, none) none).1 "survey") (some 100, none) = none ∧
    dget? (get_conversations
      (update_conversation exSt (constClient [] false) "survey"
        (some 777, some 9) none).1 "survey") (some 777, some 9) = none :=
  ⟨rfl,
   C5_absent_removes_entry exSt (constClient [] false) "survey" (some 100, none) rfl,
   C5_absent_removes_entry exSt (constClient [] false) "survey" (some 777, some 9) rfl⟩

/-- C6: with storage of the respective kind enabled, loading right after
a save returns exactly the saved value, for every record kind: user data,
chat data, bot data, callback data, and a conversation-table entry. -/
theorem C6_update_then_get {B S : Type} (st : SupState B S) (c : Client B S)
    (uid : Int) (m : Dict String B) (name : String) (key : PyKey) (s : S) :
    (st.store_data.user_data = true →
      ddGet (get_user_data (update_user_data st c uid m).1) uid = m) ∧
    (st.store_data.chat_data = true →
      ddGet (get_chat_data (update_chat_data st c uid m).1) uid = m) ∧
    (st.store_data.bot_data = true →
      get_bot_data (update_bot_data st c m).1 = m) ∧
    (st.store_data.callback_data = true →
      get_callback_data (update_callback_data st c m).1 = m) ∧
    (st.store_data.conversations = true →
      dget? (get_conversations (update_conversation st c name key (some s)).1
        name) key = some s) := by
  refine ⟨fun h => ?_, fun h => ?_, fun h => ?_, fun h => ?_, fun h => ?_⟩
  · rw [update_user_data_fst st c uid m h]
    simp [get_user_data, ddGet, dget?_dset_self]
  · rw [update_chat_data_fst st c uid m h]
    simp [get_chat_data, ddGet, dget?_dset_self]
  · rw [update_bot_data_fst st c m h]
    simp [get_bot_data]
  · rw [update_callback_data_fst st c m h]
    simp [get_callback_data]
  · rw [update_conversation_fst st c name key (some s) h]
    simp [get_conversations, dget?_dset_self]

/-- C6 (witness): the round trip at a concrete state and value for each
of the five record kinds, each storage switch discharged. -/
theorem C6_witness :
    exSt.store_data.user_data = true ∧
    ddGet (get_user_data
      (update_user_data exSt (constClient [] false) 5 [("visits", 2)]).1) 5 =
      [("visits", 2)] ∧
    ddGet (get_chat_data
      (update_chat_data exSt (constClient [] false) 5 [("visits", 2)]).1) 5 =
      [("visits", 2)] ∧
    get_bot_data
      (update_bot_data exSt (constClient [] false) [("visits", 2)]).1 =
      [("visits", 2)] ∧
    get_callback_data
      (update_callback_data exSt (constClient [] false) [("visits", 2)]).1 =
      [("visits", 2)] ∧
    dget? (get_conversations
      (update_conversation exSt (constClient [] false) "survey"
        (some 100, some 7) (some 8)).1 "survey") (some 100, some 7) = some 8 :=
  ⟨rfl,
   (C6_update_then_get exSt (constClient [] false) 5 [("visits", 2)]
     "survey" (some 100, some 7) 8).1 rfl,
   (C6_update_then_get exSt (constClient [] false) 5 [("visits", 2)]
     "survey" (some 100, some 7) 8).2.1 rfl,
   (C6_update_then_get exSt (constClient [] false) 5 [("visits", 2)]
     "survey" (some 100, some 7) 8).2.2.1 rfl,
   (C6_update_then_get exSt (constClient [] false) 5 [("visits", 2)]
     "survey" (some 100, some 7) 8).2.2.2.1 rfl,
   (C6_update_then_get exSt (constClient [] false) 5 [("visits", 2)]
     "survey" (some 100, some 7) 8).2.2.2.2 rfl⟩

/-- C7: saving user data for the same key twice replaces the value
entirely — the second mapping is returned whole, with no merging. -/
theorem C7_last_write_wins {B S : Type} (st : SupState B S) (c : Client B S)
    (uid : Int) (m₁ m₂ : Dict String B)
    (h : st.store_data.user_data = true) :
    ddGet (get_user_data
      (update_user_data (update_user_data st c uid m₁).1
        (update_user_data st c uid m₁).2 uid m₂).1) uid = m₂ := by
  have h1 := update_user_data_fst st c uid m₁ h
  rw [update_user_data_fst _ _ uid m₂ (by rw [h1]; exact h), h1]
  simp [get_user_data, ddGet, dget?_dset_self]

/-- C7 (witness): the scenario of the spec — user 123 saved as
`visits = 1` then `visits = 2`; the load yields exactly `visits = 2`. -/
theorem C7_witness :
    exSt.store_data.user_data = true ∧
    ddGet (get_user_data
      (update_user_data (update_user_data exSt (constClient [] false) 123 [("visits", 1)]).1
        (update_user_data exSt (constClient [] false) 123 [("visits", 1)]).2
        123 [("visits", 2)]).1) 123 = [("visits", 2)] :=
  ⟨rfl, C7_last_write_wins exSt (constClient [] false) 123
    [("visits", 1)] [("visits", 2)] rfl⟩

/-- C8: dropping a user or chat record then loading it returns the empty
mapping, for every state — present or absent alike, and `drop` never
raises (it is total); dropping twice leaves the same cache as dropping
once. -/
theorem C8_drop_then_empty {B S : Type} (st : SupState B S) (c : Client B S)
    (k : Int) :
    ddGet (get_user_data (drop_user_data st c k).1) k = [] ∧
    ddGet (get_chat_data (drop_chat_data st c k).1) k = [] ∧
    (drop_user_data (drop_user_data st c k).1 (drop_user_data st c k).2 k).1.user_data
      = (drop_user_data st c k).1.user_data := by
  refine ⟨?_, ?_, ?_⟩
  · rw [drop_user_data_fst]
    simp [get_user_data, ddGet, dget?_dpop_self]
  · rw [drop_chat_data_fst]
    simp [get_chat_data, ddGet, dget?_dpop_self]
  · rw [drop_user_data_fst, drop_user_data_fst]
    simp [dpop_dpop]

/-- C9: `health_check` is a reachability oracle: it returns without error
when the select, the probe upsert and the read-back all succeed (the
probe row then reads back non-empty by construction of the upsert), and
it raises when the initial select, the upsert, or the read-back fails. -/
theorem C9_health_check_oracle {B S : Type} (st : SupState B S) (c : Client B S) :
    (c.failAt c.calls = false → c.failAt (c.calls + 1) = false →
     c.failAt (c.calls + 2) = false → (health_check st c).isOk = true) ∧
    (c.failAt c.calls = true → (health_check st c).isOk = false) ∧
    (c.failAt c.calls = false → c.failAt (c.calls + 1) = true →
        (health_check st c).isOk = false) ∧
    (c.failAt c.calls = false → c.failAt (c.calls + 1) = false →
     c.failAt (c.calls + 2) = true → (health_check st c).isOk = false) := by
  refine ⟨fun h1 h2 h3 => ?_, fun h1 => ?_, fun h1 h2 => ?_, fun h1 h2 h3 => ?_⟩
  · simp only [health_check, Client.selectAny, Client.fails, h1, Bool.false_eq_true,
      if_false, Client.upsert, h2, Client.selectEq, h3, List.foldl,
      dget?_dset_self, List.isEmpty_cons, Client.deleteEq]
    by_cases h4 : c.failAt (c.calls + 3) <;> simp [h4, Except.map, Except.isOk, Except.toBool]
  · simp [health_check, Client.selectAny, Client.fails, h1, Except.isOk, Except.toBool]
  · simp only [health_check, Client.selectAny, Client.fails, h1, Bool.false_eq_true,
      if_false, Client.upsert, h2, if_true, Client.deleteEq]
    by_cases h4 : c.failAt (c.calls + 2) <;> simp [h4, Except.map, Except.isOk, Except.toBool]
  · simp only [health_check, Client.selectAny, Client.fails, h1, Bool.false_eq_true,
      if_false, Client.upsert, h2, Client.selectEq, h3, if_true, Client.deleteEq]
    by_cases h4 : c.failAt (c.calls + 3) <;> simp [h4, Except.map, Except.isOk, Except.toBool]

/-- C9 (witness): the oracle at four concrete fault schedules — all
round-trips succeeding, and the first, second or third round-trip
failing. -/
theorem C9_witness :
    (health_check exSt (constClient [] false)).isOk = true ∧
    (health_check exSt (constClient [] true)).isOk = false ∧
    (health_check exSt (failNthClient 1 : Client Nat Nat)).isOk = false ∧
    (health_check exSt (failNthClient 2 : Client Nat Nat)).isOk = false :=
  ⟨(C9_health_check_oracle exSt (constClient [] false)).1 rfl rfl rfl,
   (C9_health_check_oracle exSt (constClient [] true)).2.1 rfl,
   (C9_health_check_oracle exSt (failNthClient 1)).2.2.1 rfl rfl,
   (C9_health_check_oracle exSt (failNthClient 2)).2.2.2 rfl rfl rfl⟩

/-- C10: in the adapter revision embedded in `main.py`, `update_user_data`
writes row `user_<id>` while `get_user_data` reads only row `user_data`,
so the mapping `get_user_data` returns is unchanged by any sequence of
prior `update_user_data` calls; likewise for chat data. -/
theorem C10_get_unchanged_by_updates {B : Type} (rows : Dict String (Dict String B))
    (ups : List (Int × Dict String B)) :
    MainRev.get_user_data
        (ups.foldl (fun r p => MainRev.update_user_data r p.1 p.2) rows) =
      MainRev.get_user_data rows ∧
    MainRev.get_chat_data
        (ups.foldl (fun r p => MainRev.update_chat_data r p.1 p.2) rows) =
      MainRev.get_chat_data rows := by
  constructor
  · induction ups generalizing rows with
    | nil => rfl
    | cons p rest ih =>
        rw [List.foldl_cons, ih]
        simp [MainRev.get_user_data, MainRev.update_user_data, MainRev._load,
          MainRev._save, dget?_dset_ne _ _ _ _ (Ne.symm (user_row_ne p.1))]
  · induction ups generalizing rows with
    | nil => rfl
    | cons p rest ih =>
        rw [List.foldl_cons, ih]
        simp [MainRev.get_chat_data, MainRev.update_chat_data, MainRev._load,
          MainRev._save, dget?_dset_ne _ _ _ _ (Ne.symm (chat_row_ne p.1))]

end SupaSpec
